import Mathlib

/-!
Shallow embedding of the baby-language-translator application:
the recording store (remote database with local-storage fallback),
the classifier adapter (JSON parse with fixed default fallback),
and the recorder start/stop event flows.
-/

/-- A persisted recording, as built in `handleSaveRecording` (App.tsx).
`createdAt`/`timestamp` are ISO time strings in the source; they are
modelled as naturals ordered the same way the string timestamps order. -/
structure Recording where
  id : String
  userId : String
  type : String
  urgency : String
  confidence : Int
  action : String
  audioData : String
  timestamp : Nat
  createdAt : Nat
deriving DecidableEq, Repr

/-- Remote database create (`blink.db.recordings.create`): appends a row. -/
def dbCreate (db : List Recording) (r : Recording) : List Recording :=
  db ++ [r]

/-- Comparison used by the remote list call `orderBy: \x7b createdAt: 'desc' \x7d`:
newest first. -/
def newerFirst (a b : Recording) : Bool :=
  decide (b.createdAt ≤ a.createdAt)

/-- Remote database list (`blink.db.recordings.list` in `loadRecordings`):
filter by user, order by `createdAt` descending, limit 20. -/
def dbList (db : List Recording) (uid : String) : List Recording :=
  ((db.filter (fun r => r.userId == uid)).mergeSort newerFirst).take 20

/-- The local-storage fallback branch of `handleSaveRecording` (App.tsx
lines 53-61): read the per-user list, `unshift` the new recording at the
front, and `splice(50)` (keep the first 50) when the length exceeds 50. -/
def localSaveRecordings (store : List Recording) (r : Recording) : List Recording :=
  let l := r :: store
  if 50 < l.length then l.take 50 else l

/-- Pointwise update of the per-user local-storage map
(`localStorage.setItem` on key `recordings_<userId>`). -/
def updateLocal (localAll : String → List Recording) (uid : String)
    (l : List Recording) : String → List Recording :=
  fun u => if u = uid then l else localAll u

/-- `handleSaveRecording` (App.tsx): try the database first; on database
failure fall back to the per-user local-storage list. `dbUp` is whether the
remote create succeeds. Returns the new database and local-storage states. -/
def handleSaveRecording (dbUp : Bool) (db : List Recording)
    (localAll : String → List Recording) (r : Recording) :
    List Recording × (String → List Recording) :=
  if dbUp then (dbCreate db r, localAll)
  else (db, updateLocal localAll r.userId (localSaveRecordings (localAll r.userId) r))

/-- `loadRecordings` (RecordingHistory): try the database list first
(filter by user, newest first, limit 20); on database failure read the
per-user local-storage list as stored. -/
def loadRecordings (dbUp : Bool) (db : List Recording)
    (localAll : String → List Recording) (uid : String) : List Recording :=
  if dbUp then dbList db uid else localAll uid

/-- `deleteRecording` (RecordingHistory): when not already in local-storage
mode, try the remote delete; if it fails, write the displayed in-memory
list minus the deleted id to local storage. In local-storage mode, write
that filtered list directly. The displayed list is filtered in memory in
every case. Returns (database, local-storage map, displayed list). -/
def deleteRecording (usingLocal : Bool) (dbOk : Bool) (db : List Recording)
    (localAll : String → List Recording) (displayed : List Recording)
    (uid delId : String) :
    List Recording × (String → List Recording) × List Recording :=
  let kept := displayed.filter (fun r => r.id != delId)
  if usingLocal then
    (db, updateLocal localAll uid kept, kept)
  else
    if dbOk then
      (db.filter (fun r => r.id != delId), localAll, kept)
    else
      (db, updateLocal localAll uid kept, kept)

/-- Iterated saves: apply `handleSaveRecording` for each recording in order,
threading the database and local-storage states. -/
def runSaves (dbUp : Bool) (st : List Recording × (String → List Recording))
    (rs : List Recording) : List Recording × (String → List Recording) :=
  rs.foldl (fun st r => handleSaveRecording dbUp st.1 st.2 r) st

/-- The history list is most-recent-first: `createdAt` is non-increasing. -/
def mostRecentFirst (l : List Recording) : Prop :=
  List.Pairwise (fun a b => b.createdAt ≤ a.createdAt) l

instance : DecidablePred mostRecentFirst := fun l =>
  List.instDecidablePairwise l

/-- JSON values, as produced by the platform `JSON.parse`. A number is
`num m e`, denoting `m * 10 ^ e` (exact decimal-literal semantics). -/
inductive Json where
  | null : Json
  | bool : Bool → Json
  | num : Int → Int → Json
  | str : String → Json
  | arr : List Json → Json
  | obj : List (String × Json) → Json
deriving Repr

/-- JSON whitespace. -/
def isJsonWs (c : Char) : Bool :=
  c == ' ' || c == '\t' || c == '\n' || c == '\r'

/-- Skip leading JSON whitespace. -/
def skipWs : List Char → List Char
  | [] => []
  | c :: cs => if isJsonWs c then skipWs cs else c :: cs

/-- Take the leading run of decimal digits. -/
def takeDigits : List Char → List Char × List Char
  | [] => ([], [])
  | c :: cs =>
    if c.isDigit then
      let p := takeDigits cs
      (c :: p.1, p.2)
    else ([], c :: cs)

/-- Value of a run of decimal digits. -/
def digitsToNat (ds : List Char) : Nat :=
  ds.foldl (fun acc c => acc * 10 + (c.toNat - 48)) 0

/-- Value of a run of hexadecimal digits. -/
def hexVal (c : Char) : Option Nat :=
  if c.isDigit then some (c.toNat - 48)
  else if 'a' ≤ c && c ≤ 'f' then some (c.toNat - 87)
  else if 'A' ≤ c && c ≤ 'F' then some (c.toNat - 55)
  else none

/-- Parse a JSON number (grammar: `-? int frac? exp?` with no leading
zeros), returning its mantissa/exponent representation and the rest. -/
def parseNumber (cs : List Char) : Option (Json × List Char) :=
  let signed : Bool × List Char :=
    match cs with
    | '-' :: rest => (true, rest)
    | _ => (false, cs)
  let intPart := takeDigits signed.2
  match intPart.1 with
  | [] => none
  | d :: ds =>
    if d == '0' && ds ≠ [] then none
    else
      let fracStep : Option (List Char × List Char) :=
        match intPart.2 with
        | '.' :: rest =>
          let p := takeDigits rest
          if p.1 = [] then none else some (p.1, p.2)
        | rest => some ([], rest)
      match fracStep with
      | none => none
      | some (fds, afterFrac) =>
        let expStep : Option (Int × List Char) :=
          match afterFrac with
          | 'e' :: rest => some (0, rest)
          | 'E' :: rest => some (0, rest)
          | rest => some (1, rest)
        match expStep with
        | none => none
        | some (tag, afterE) =>
          if tag = 1 then
            let m : Int := Int.ofNat (digitsToNat (d :: ds ++ fds))
            let m := if signed.1 then -m else m
            some (Json.num m (-(Int.ofNat fds.length)), afterFrac)
          else
            let expSigned : Bool × List Char :=
              match afterE with
              | '+' :: rest => (false, rest)
              | '-' :: rest => (true, rest)
              | rest => (false, rest)
            let eds := takeDigits expSigned.2
            if eds.1 = [] then none
            else
              let eVal : Int := Int.ofNat (digitsToNat eds.1)
              let eVal := if expSigned.1 then -eVal else eVal
              let m : Int := Int.ofNat (digitsToNat (d :: ds ++ fds))
              let m := if signed.1 then -m else m
              some (Json.num m (eVal - Int.ofNat fds.length), eds.2)

/-- Parse the body of a JSON string after the opening quote, handling
escapes; returns the characters and the rest after the closing quote. -/
def parseStringBody : Nat → List Char → Option (List Char × List Char)
  | 0, _ => none
  | _ + 1, [] => none
  | fuel + 1, c :: cs =>
    if c == '"' then some ([], cs)
    else if c == '\\' then
      match cs with
      | [] => none
      | e :: cs2 =>
        let simple : Option Char :=
          if e == '"' then some '"'
          else if e == '\\' then some '\\'
          else if e == '/' then some '/'
          else if e == 'b' then some '\x08'
          else if e == 'f' then some '\x0c'
          else if e == 'n' then some '\n'
          else if e == 'r' then some '\r'
          else if e == 't' then some '\t'
          else none
        match simple with
        | some ch =>
          match parseStringBody fuel cs2 with
          | some (body, rest) => some (ch :: body, rest)
          | none => none
        | none =>
          if e == 'u' then
            match cs2 with
            | h1 :: h2 :: h3 :: h4 :: cs3 =>
              match hexVal h1, hexVal h2, hexVal h3, hexVal h4 with
              | some v1, some v2, some v3, some v4 =>
                let code := ((v1 * 16 + v2) * 16 + v3) * 16 + v4
                match parseStringBody fuel cs3 with
                | some (body, rest) => some (Char.ofNat code :: body, rest)
                | none => none
              | _, _, _, _ => none
            | _ => none
          else none
    else if c.toNat < 32 then none
    else
      match parseStringBody fuel cs with
      | some (body, rest) => some (c :: body, rest)
      | none => none

mutual

/-- Parse one JSON value from the input (leading whitespace allowed),
returning the value and the remaining input. `fuel` bounds recursion depth. -/
def parseValue : Nat → List Char → Option (Json × List Char)
  | 0, _ => none
  | fuel + 1, cs =>
    match skipWs cs with
    | 'n' :: 'u' :: 'l' :: 'l' :: rest => some (Json.null, rest)
    | 't' :: 'r' :: 'u' :: 'e' :: rest => some (Json.bool true, rest)
    | 'f' :: 'a' :: 'l' :: 's' :: 'e' :: rest => some (Json.bool false, rest)
    | '"' :: rest =>
      match parseStringBody (rest.length + 1) rest with
      | some (body, rest2) => some (Json.str (String.mk body), rest2)
      | none => none
    | '[' :: rest =>
      (match skipWs rest with
        | ']' :: rest2 => some (Json.arr [], rest2)
        | cs2 =>
          match parseElements fuel cs2 with
          | some (xs, rest2) => some (Json.arr xs, rest2)
          | none => none)
    | '\x7b' :: rest =>
      (match skipWs rest with
        | '\x7d' :: rest2 => some (Json.obj [], rest2)
        | cs2 =>
          match parseMembers fuel cs2 with
          | some (ms, rest2) => some (Json.obj ms, rest2)
          | none => none)
    | c :: cs2 =>
      if c == '-' || c.isDigit then parseNumber (c :: cs2) else none
    | [] => none

/-- Parse the comma-separated elements of a JSON array up to and including
the closing bracket. -/
def parseElements : Nat → List Char → Option (List Json × List Char)
  | 0, _ => none
  | fuel + 1, cs =>
    match parseValue fuel cs with
    | none => none
    | some (v, rest) =>
      match skipWs rest with
      | ',' :: rest2 =>
        match parseElements fuel rest2 with
        | some (xs, rest3) => some (v :: xs, rest3)
        | none => none
      | ']' :: rest2 => some ([v], rest2)
      | _ => none

/-- Parse the comma-separated members of a JSON object up to and including
the closing brace. -/
def parseMembers : Nat → List Char → Option (List (String × Json) × List Char)
  | 0, _ => none
  | fuel + 1, cs =>
    match skipWs cs with
    | '"' :: rest =>
      (match parseStringBody (rest.length + 1) rest with
        | none => none
        | some (key, rest2) =>
          match skipWs rest2 with
          | ':' :: rest3 =>
            (match parseValue fuel rest3 with
              | none => none
              | some (v, rest4) =>
                match skipWs rest4 with
                | ',' :: rest5 =>
                  (match parseMembers fuel rest5 with
                    | some (ms, rest6) => some ((String.mk key, v) :: ms, rest6)
                    | none => none)
                | '\x7d' :: rest5 => some ([(String.mk key, v)], rest5)
                | _ => none)
          | _ => none)
    | _ => none

end

/-- The platform `JSON.parse`: parse one value and require only trailing
whitespace after it. Returns `none` exactly when `JSON.parse` throws. -/
def parseJson (s : String) : Option Json :=
  match parseValue (2 * s.length + 2) s.data with
  | some (j, rest) => if skipWs rest = [] then some j else none
  | none => none

/-- The fixed fallback record built in `analyzeAudio` when `JSON.parse`
throws, with the raw reply as the explanation. -/
def defaultAnalysis (text : String) : Json :=
  Json.obj
    [("type", Json.str "general"),
     ("urgency", Json.str "medium"),
     ("confidence", Json.num 75 0),
     ("action", Json.str "Check if baby needs feeding, changing, or comfort"),
     ("explanation", Json.str text)]

/-- `analyzeAudio` (AudioRecorder) after the AI call returned `text`:
`try return JSON.parse(text) catch` return the fixed default record. -/
def analyzeAudio (text : String) : Json :=
  match parseJson text with
  | some j => j
  | none => defaultAnalysis text

/-- Property access on the value returned by the adapter (first matching
object key; non-objects have no fields). -/
def Json.getField : Json → String → Option Json
  | Json.obj fields, k => (fields.find? (fun m => m.1 == k)).map (fun m => m.2)
  | _, _ => none

/-- The AI transport call followed by `analyzeAudio`: a transport failure
propagates out of `analyzeAudio` (the try there only wraps the parse). -/
def analyzeAudioCall (transport : Except String String) : Except String Json :=
  match transport with
  | Except.error e => Except.error e
  | Except.ok text => Except.ok (analyzeAudio text)

/-- The delivery step of `onstop` (AudioRecorder): `try` call the adapter
and pass the analysis to `onRecordingComplete`; `catch` log and pass `null`
with the same audio. Totality of this function is the no-throw guarantee. -/
def onstopDeliver (b64 : String) (transport : Except String String) :
    String × Option Json :=
  match analyzeAudioCall transport with
  | Except.ok a => (b64, some a)
  | Except.error _ => (b64, none)

/-- Observable steps of the `onstop` handler (AudioRecorder.tsx), in
program order. -/
inductive StopEvent where
  | setIsAnalyzing (b : Bool)
  | setIsRecording (b : Bool)
  | setAudioLevel (n : Nat)
  | cancelAnimation
  | finalizeBlob
  | encodeBase64
  | invokeClassifier
  | invokeCallback (hasAnalysis : Bool)
  | releaseMicrophone
  | closeAudioContext
deriving DecidableEq, Repr

/-- The `onstop` handler as its trace of observable steps (AudioRecorder.tsx
lines 40-78): UI state resets, blob finalization, base64 encoding, the
classification call, the callback (with the analysis, or with `null` when
classification threw), and only then the microphone/audio-context cleanup. -/
def onstopTrace (classifyOk : Bool) : List StopEvent :=
  [StopEvent.setIsAnalyzing true, StopEvent.setIsRecording false,
   StopEvent.setAudioLevel 0, StopEvent.cancelAnimation,
   StopEvent.finalizeBlob, StopEvent.encodeBase64,
   StopEvent.invokeClassifier, StopEvent.invokeCallback classifyOk,
   StopEvent.setIsAnalyzing false,
   StopEvent.releaseMicrophone, StopEvent.closeAudioContext]

/-- Position of the first occurrence of a step in a trace. -/
def stepPos (tr : List StopEvent) (e : StopEvent) : Nat :=
  tr.findIdx (fun x => x == e)

/-- Observable steps of `startRecording` (AudioRecorder.tsx). -/
inductive StartEvent where
  | acquireMicrophone (ok : Bool)
  | setupAnalyser
  | createRecorder
  | registerHandlers
  | startRecorder
  | setIsRecording (b : Bool)
  | startMonitor
  | invokeCallback
  | logError
deriving DecidableEq, Repr

/-- `startRecording` as its trace of observable steps: on microphone
acquisition failure the `catch` logs the error and nothing else runs; on
success the recorder is set up, started, and `isRecording` is set. -/
def startRecording (acquireOk : Bool) : List StartEvent :=
  if acquireOk then
    [StartEvent.acquireMicrophone true, StartEvent.setupAnalyser,
     StartEvent.createRecorder, StartEvent.registerHandlers,
     StartEvent.startRecorder, StartEvent.setIsRecording true,
     StartEvent.startMonitor]
  else
    [StartEvent.acquireMicrophone false, StartEvent.logError]

/-- The `isRecording` flag after a trace, starting from `false`: the last
`setIsRecording` step wins. -/
def isRecordingAfter (tr : List StartEvent) : Bool :=
  ((tr.filterMap (fun e =>
      match e with
      | StartEvent.setIsRecording b => some b
      | _ => none)).getLast?).getD false

theorem localSaveRecordings_eq_take (store : List Recording) (r : Recording) :
    localSaveRecordings store r = (r :: store).take 50 := by
  simp only [localSaveRecordings]
  split
  · rfl
  · next h => exact (List.take_of_length_le (Nat.le_of_not_lt h)).symm

theorem localSaveRecordings_length_le (store : List Recording) (r : Recording) :
    (localSaveRecordings store r).length ≤ 50 := by
  rw [localSaveRecordings_eq_take, List.length_take]
  exact Nat.min_le_left _ _

theorem foldl_localSave_eq_take (rs : List Recording) :
    ∀ acc : List Recording, acc.length ≤ 50 →
      rs.foldl localSaveRecordings acc = (rs.reverse ++ acc).take 50 := by
  induction rs with
  | nil =>
    intro acc h
    simp [List.take_of_length_le h]
  | cons r rs ih =>
    intro acc h
    rw [List.foldl_cons, localSaveRecordings_eq_take,
      ih ((r :: acc).take 50) (by rw [List.length_take]; exact Nat.min_le_left _ _),
      List.reverse_cons, List.append_assoc, List.singleton_append,
      List.take_append_eq_append_take, List.take_append_eq_append_take,
      List.take_take]
    congr 1
    rw [Nat.min_eq_left (Nat.sub_le _ _)]

theorem runSaves_cons (dbUp : Bool) (st : List Recording × (String → List Recording))
    (r : Recording) (rs : List Recording) :
    runSaves dbUp st (r :: rs) = runSaves dbUp (handleSaveRecording dbUp st.1 st.2 r) rs := rfl

theorem runSavesLocal_length_le (rs : List Recording) :
    ∀ st : List Recording × (String → List Recording),
      (∀ uid, (st.2 uid).length ≤ 50) →
      ∀ uid, ((runSaves false st rs).2 uid).length ≤ 50 := by
  induction rs with
  | nil => intro st h uid; exact h uid
  | cons r rs ih =>
    intro st h uid
    rw [runSaves_cons]
    refine ih _ ?_ uid
    intro u
    simp only [handleSaveRecording, updateLocal, if_neg Bool.false_ne_true]
    by_cases hu : u = r.userId
    · simp only [hu, if_pos rfl]
      exact localSaveRecordings_length_le _ _
    · simp only [if_neg hu]
      exact h u

theorem runSavesLocal_project (uid : String) (rs : List Recording)
    (huser : ∀ r ∈ rs, r.userId = uid) :
    ∀ (db : List Recording) (localAll : String → List Recording),
      ((runSaves false (db, localAll) rs).2) uid =
        rs.foldl localSaveRecordings (localAll uid) := by
  induction rs with
  | nil => intro db localAll; rfl
  | cons r rs ih =>
    intro db localAll
    rw [runSaves_cons, List.foldl_cons]
    have hr : r.userId = uid := huser r (List.mem_cons_self r rs)
    simp only [handleSaveRecording, if_neg Bool.false_ne_true]
    rw [ih (fun x hx => huser x (List.mem_cons_of_mem r hx)) db]
    congr 1
    simp [updateLocal, hr]

/-- C2: for every user, after any number of save operations that fall back
to local storage, the per-user local-storage recording list contains at
most 50 entries; moreover a single fallback save always leaves at most 50
entries, whatever the prior list was. -/
theorem localStorage_never_exceeds_fifty :
    (∀ (store : List Recording) (r : Recording),
        (localSaveRecordings store r).length ≤ 50) ∧
    (∀ (rs : List Recording) (uid : String),
        (((runSaves false (([] : List Recording), fun _ => ([] : List Recording))) rs).2 uid).length ≤ 50) := by
  constructor
  · exact localSaveRecordings_length_le
  · intro rs uid
    exact runSavesLocal_length_le rs _ (fun _ => by simp) uid

/-- Sample recording used by concrete witnesses. -/
def sampleRecording (i : Nat) : Recording :=
  { id := Nat.repr i, userId := "user-1", type := "hunger", urgency := "low",
    confidence := 80, action := "Feed the baby", audioData := "AAAA",
    timestamp := i, createdAt := i }

/-- Fifty-one distinct recordings for the eviction witness. -/
def fiftyOneRecordings : List Recording :=
  (List.range 51).map sampleRecording

/-- C3: saving 51 recordings of one user while the remote store is
unavailable leaves a local list of exactly 50 entries, in most-recent-first
order (the reverse of the save order minus the first save), with the
first-saved (oldest) recording the one evicted. -/
theorem save51_evicts_oldest (uid : String) (rs : List Recording)
    (hlen : rs.length = 51) (hnd : rs.Nodup)
    (huser : ∀ r ∈ rs, r.userId = uid) :
    (((runSaves false (([] : List Recording), fun _ => ([] : List Recording))) rs).2 uid).length = 50 ∧
    ((runSaves false (([] : List Recording), fun _ => ([] : List Recording))) rs).2 uid = (rs.drop 1).reverse ∧
    (∀ r1, rs.head? = some r1 →
      r1 ∉ ((runSaves false (([] : List Recording), fun _ => ([] : List Recording))) rs).2 uid) := by
  have hproj := runSavesLocal_project uid rs huser [] (fun _ => [])
  match rs, hlen with
  | r1 :: t, hlen =>
    have htlen : t.length = 50 := by simpa using hlen
    have hfold : (r1 :: t).foldl localSaveRecordings ([] : List Recording)
        = t.reverse := by
      rw [foldl_localSave_eq_take _ _ (by simp), List.append_nil,
        List.reverse_cons, List.take_append_eq_append_take]
      simp [List.take_of_length_le, List.length_reverse, htlen]
    have hmain : ((runSaves false (([] : List Recording), fun _ => ([] : List Recording))) (r1 :: t)).2 uid
        = t.reverse := by rw [hproj]; exact hfold
    refine ⟨?_, ?_, ?_⟩
    · rw [hmain, List.length_reverse, htlen]
    · rw [hmain]; rfl
    · intro x hx
      rw [List.head?_cons, Option.some.injEq] at hx
      rw [hmain, List.mem_reverse, ← hx]
      exact (List.nodup_cons.mp hnd).1

/-- Witness for `save51_evicts_oldest` at 51 concrete recordings. -/
theorem save51_evicts_oldest_witness :
    (fiftyOneRecordings.length = 51 ∧ fiftyOneRecordings.Nodup ∧
      (∀ r ∈ fiftyOneRecordings, r.userId = "user-1")) ∧
    ((((runSaves false (([] : List Recording), fun _ => ([] : List Recording))) fiftyOneRecordings).2 "user-1").length = 50 ∧
     ((runSaves false (([] : List Recording), fun _ => ([] : List Recording))) fiftyOneRecordings).2 "user-1" = (fiftyOneRecordings.drop 1).reverse ∧
     (∀ r1, fiftyOneRecordings.head? = some r1 →
       r1 ∉ ((runSaves false (([] : List Recording), fun _ => ([] : List Recording))) fiftyOneRecordings).2 "user-1")) :=
  ⟨⟨by decide, by decide, by decide⟩,
    save51_evicts_oldest "user-1" fiftyOneRecordings (by decide) (by decide) (by decide)⟩

/-- C4: a classifier reply that does not parse as JSON yields the fixed
default record with type `general`, urgency `medium`, confidence 75, the
fixed action text, and the raw reply as the explanation. -/
theorem unparsable_reply_yields_default (text : String)
    (h : parseJson text = none) :
    analyzeAudio text =
      Json.obj
        [("type", Json.str "general"),
         ("urgency", Json.str "medium"),
         ("confidence", Json.num 75 0),
         ("action", Json.str "Check if baby needs feeding, changing, or comfort"),
         ("explanation", Json.str text)] := by
  simp [analyzeAudio, h, defaultAnalysis]

/-- A concrete free-text reply that is not valid JSON. -/
def freeTextReply : String := "Sorry, I cannot analyze this audio clip."

/-- Witness for `unparsable_reply_yields_default` at a concrete reply. -/
theorem unparsable_reply_yields_default_witness :
    parseJson freeTextReply = none ∧
    analyzeAudio freeTextReply =
      Json.obj
        [("type", Json.str "general"),
         ("urgency", Json.str "medium"),
         ("confidence", Json.num 75 0),
         ("action", Json.str "Check if baby needs feeding, changing, or comfort"),
         ("explanation", Json.str freeTextReply)] :=
  ⟨rfl, unparsable_reply_yields_default freeTextReply rfl⟩

/-- C5: a transport failure during classification delivers a `null`
analysis together with the captured audio to the recording-complete
callback; `onstopDeliver` is total, so nothing is thrown to the caller. -/
theorem transport_failure_delivers_null (b64 : String) (e : String) :
    onstopDeliver b64 (Except.error e) = (b64, none) := rfl

/-- A syntactically valid JSON reply whose urgency is outside
low/medium/high and whose confidence is outside 0-100. -/
def outOfRangeReply : String :=
  "\x7b\"type\":\"hunger\",\"urgency\":\"extreme\",\"confidence\":150,\"action\":\"Call a doctor\",\"explanation\":\"loud\"\x7d"

/-- C9 fails on the code: the adapter returns any parsed reply unvalidated,
so a reply can carry urgency `extreme` (not in low/medium/high) and
confidence 150 (not within 0-100). -/
theorem analysis_not_always_in_range :
    (analyzeAudio outOfRangeReply).getField "urgency" = some (Json.str "extreme") ∧
    "extreme" ≠ "low" ∧ "extreme" ≠ "medium" ∧ "extreme" ≠ "high" ∧
    (analyzeAudio outOfRangeReply).getField "confidence" = some (Json.num 150 0) ∧
    ¬ ((150 : Int) ≤ 100) :=
  ⟨rfl, by decide, by decide, by decide, rfl, by decide⟩

/-- C9 amended: the fixed default record produced on parse failure does
satisfy the invariant: urgency `medium` is one of low/medium/high and
confidence 75 is an integer within 0-100. Parsed replies are passed through
without validation. -/
theorem default_analysis_in_range (text : String) (h : parseJson text = none) :
    (analyzeAudio text).getField "urgency" = some (Json.str "medium") ∧
    ("medium" = "low" ∨ "medium" = "medium" ∨ "medium" = "high") ∧
    (analyzeAudio text).getField "confidence" = some (Json.num 75 0) ∧
    (0 : Int) ≤ 75 ∧ (75 : Int) ≤ 100 := by
  rw [unparsable_reply_yields_default text h]
  refine ⟨rfl, by decide, rfl, by decide, by decide⟩

/-- A second concrete free-text reply that is not valid JSON. -/
def freeTextReplyTwo : String := "The baby sounds hungry to me!"

/-- Witness for `default_analysis_in_range` at a concrete reply. -/
theorem default_analysis_in_range_witness :
    parseJson freeTextReplyTwo = none ∧
    ((analyzeAudio freeTextReplyTwo).getField "urgency" = some (Json.str "medium") ∧
     ("medium" = "low" ∨ "medium" = "medium" ∨ "medium" = "high") ∧
     (analyzeAudio freeTextReplyTwo).getField "confidence" = some (Json.num 75 0) ∧
     (0 : Int) ≤ 75 ∧ (75 : Int) ≤ 100) :=
  ⟨rfl, default_analysis_in_range freeTextReplyTwo rfl⟩

/-- C7 fails on the code: in the `onstop` handler the microphone release
runs after the classification call, not before it. -/
theorem stop_order_claim_fails :
    ¬ (stepPos (onstopTrace true) StopEvent.finalizeBlob
          < stepPos (onstopTrace true) StopEvent.invokeClassifier ∧
       stepPos (onstopTrace true) StopEvent.releaseMicrophone
          < stepPos (onstopTrace true) StopEvent.invokeClassifier ∧
       stepPos (onstopTrace true) StopEvent.encodeBase64
          < stepPos (onstopTrace true) StopEvent.invokeClassifier) := by
  decide

/-- C7 amended: on every stop, the byte stream is finalized and the result
is encoded as base64 before the classifier is invoked; the microphone is
released only after the classification call, before the audio context is
closed. -/
theorem stop_event_order (classifyOk : Bool) :
    stepPos (onstopTrace classifyOk) StopEvent.finalizeBlob
        < stepPos (onstopTrace classifyOk) StopEvent.encodeBase64 ∧
    stepPos (onstopTrace classifyOk) StopEvent.encodeBase64
        < stepPos (onstopTrace classifyOk) StopEvent.invokeClassifier ∧
    stepPos (onstopTrace classifyOk) StopEvent.invokeClassifier
        < stepPos (onstopTrace classifyOk) StopEvent.releaseMicrophone ∧
    stepPos (onstopTrace classifyOk) StopEvent.releaseMicrophone
        < stepPos (onstopTrace classifyOk) StopEvent.closeAudioContext := by
  cases classifyOk <;> decide

/-- C8: when microphone acquisition fails, `startRecording` logs the error
and aborts: no recorder is created or started, the recording-complete
callback is never invoked, and `isRecording` stays `false`. -/
theorem start_failure_stays_idle :
    startRecording false = [StartEvent.acquireMicrophone false, StartEvent.logError] ∧
    StartEvent.logError ∈ startRecording false ∧
    StartEvent.invokeCallback ∉ startRecording false ∧
    StartEvent.startRecorder ∉ startRecording false ∧
    StartEvent.createRecorder ∉ startRecording false ∧
    isRecordingAfter (startRecording false) = false := by
  decide

theorem newerFirst_trans (a b c : Recording) :
    newerFirst a b → newerFirst b c → newerFirst a c := by
  simp only [newerFirst, decide_eq_true_eq]
  omega

theorem newerFirst_total (a b : Recording) :
    newerFirst a b || newerFirst b a := by
  simp only [newerFirst, Bool.or_eq_true, decide_eq_true_eq]
  exact Nat.le_total b.createdAt a.createdAt

theorem mergeSort_mostRecentFirst (l : List Recording) :
    mostRecentFirst (l.mergeSort newerFirst) := by
  have h := @List.sorted_mergeSort Recording newerFirst
    newerFirst_trans newerFirst_total l
  exact h.imp (fun hab => of_decide_eq_true hab)

theorem dbList_mostRecentFirst (db : List Recording) (uid : String) :
    mostRecentFirst (dbList db uid) := by
  simp only [mostRecentFirst, dbList]
  exact List.Pairwise.sublist (List.take_sublist _ _) (mergeSort_mostRecentFirst _)

theorem head_of_sorted_strict_max (l : List Recording) (r : Recording)
    (hmem : r ∈ l) (hsorted : mostRecentFirst l)
    (hmax : ∀ x ∈ l, x ≠ r → x.createdAt < r.createdAt) :
    l.head? = some r := by
  cases l with
  | nil => cases hmem
  | cons a t =>
    rw [List.head?_cons, Option.some.injEq]
    by_contra hne
    have hrt : r ∈ t := by
      rcases List.mem_cons.mp hmem with h | h
      · cases h; exact absurd rfl hne
      · exact h
    have hlt : a.createdAt < r.createdAt :=
      hmax a (List.mem_cons_self a t) hne
    have hle : r.createdAt ≤ a.createdAt :=
      (List.pairwise_cons.mp hsorted).1 r hrt
    omega

theorem head?_take_twenty {α : Type} (l : List α) :
    (l.take 20).head? = l.head? := by
  cases l <;> rfl

/-- C1: saving a recording and then listing for the same user returns the
saved recording first, with the results most-recent-first, whichever store
(remote database or local-storage fallback) serves the save and the list.
The saved recording is strictly newer than everything already stored for
that user, and the prior local list is most-recent-first. -/
theorem save_then_list_returns_saved (dbUp : Bool) (db : List Recording)
    (localAll : String → List Recording) (r : Recording)
    (hdb : ∀ e ∈ db, e.userId = r.userId → e.createdAt < r.createdAt)
    (hloc : ∀ e ∈ localAll r.userId, e.createdAt < r.createdAt)
    (hsorted : mostRecentFirst (localAll r.userId)) :
    (loadRecordings dbUp (handleSaveRecording dbUp db localAll r).1
        (handleSaveRecording dbUp db localAll r).2 r.userId).head? = some r ∧
    mostRecentFirst (loadRecordings dbUp (handleSaveRecording dbUp db localAll r).1
        (handleSaveRecording dbUp db localAll r).2 r.userId) := by
  cases dbUp with
  | true =>
    constructor
    · show (dbList (dbCreate db r) r.userId).head? = some r
      rw [dbList, head?_take_twenty]
      apply head_of_sorted_strict_max
      · rw [List.mem_mergeSort, List.mem_filter]
        exact ⟨by simp [dbCreate], by simp⟩
      · exact mergeSort_mostRecentFirst _
      · intro x hx hxne
        rw [List.mem_mergeSort, List.mem_filter] at hx
        obtain ⟨hx1, hx2⟩ := hx
        simp only [dbCreate] at hx1
        rcases List.mem_append.mp hx1 with h | h
        · exact hdb x h (by simpa using hx2)
        · rw [List.mem_singleton] at h
          exact absurd h hxne
    · show mostRecentFirst (dbList (dbCreate db r) r.userId)
      exact dbList_mostRecentFirst _ _
  | false =>
    have hupd : (handleSaveRecording false db localAll r).2 r.userId
        = localSaveRecordings (localAll r.userId) r := by
      simp [handleSaveRecording, updateLocal]
    constructor
    · show ((handleSaveRecording false db localAll r).2 r.userId).head? = some r
      rw [hupd, localSaveRecordings_eq_take]
      rfl
    · show mostRecentFirst ((handleSaveRecording false db localAll r).2 r.userId)
      rw [hupd, localSaveRecordings_eq_take]
      simp only [mostRecentFirst]
      refine List.Pairwise.sublist (List.take_sublist _ _) ?_
      exact List.Pairwise.cons (fun b hb => Nat.le_of_lt (hloc b hb)) hsorted

/-- Witness for `save_then_list_returns_saved` with an empty remote store
and empty local storage. -/
theorem save_then_list_returns_saved_witness :
    ((∀ e ∈ ([] : List Recording), e.userId = (sampleRecording 3).userId →
        e.createdAt < (sampleRecording 3).createdAt) ∧
     (∀ e ∈ (fun _ : String => ([] : List Recording)) (sampleRecording 3).userId,
        e.createdAt < (sampleRecording 3).createdAt) ∧
     mostRecentFirst ((fun _ : String => ([] : List Recording)) (sampleRecording 3).userId)) ∧
    ((loadRecordings true (handleSaveRecording true [] (fun _ => []) (sampleRecording 3)).1
        (handleSaveRecording true [] (fun _ => []) (sampleRecording 3)).2
        (sampleRecording 3).userId).head? = some (sampleRecording 3) ∧
     mostRecentFirst (loadRecordings true (handleSaveRecording true [] (fun _ => []) (sampleRecording 3)).1
        (handleSaveRecording true [] (fun _ => []) (sampleRecording 3)).2
        (sampleRecording 3).userId)) :=
  ⟨⟨by simp, by simp, by simp [mostRecentFirst]⟩,
    save_then_list_returns_saved true [] (fun _ => []) (sampleRecording 3)
      (by simp) (by simp) (by simp [mostRecentFirst])⟩

/-- C6: deleting a recording by id removes it from subsequent list results
for that user, both when the remote database serves the delete and the list
and when the local-storage fallback serves both. -/
theorem delete_removes_everywhere (db : List Recording)
    (localAll : String → List Recording) (displayed : List Recording)
    (uid delId : String) :
    ((loadRecordings true (deleteRecording false true db localAll displayed uid delId).1
        (deleteRecording false true db localAll displayed uid delId).2.1 uid).all
      (fun x => x.id != delId)) = true ∧
    ((loadRecordings false (deleteRecording true true db localAll displayed uid delId).1
        (deleteRecording true true db localAll displayed uid delId).2.1 uid).all
      (fun x => x.id != delId)) = true := by
  constructor
  · rw [List.all_eq_true]
    intro x hx
    have hx1 : x ∈ ((db.filter (fun r => r.id != delId)).filter
        (fun r => r.userId == uid)).mergeSort newerFirst :=
      List.mem_of_mem_take (hx : x ∈ _)
    rw [List.mem_mergeSort, List.mem_filter] at hx1
    exact (List.mem_filter.mp hx1.1).2
  · rw [List.all_eq_true]
    intro x hx
    have hx1 : x ∈ updateLocal localAll uid
        (displayed.filter (fun r => r.id != delId)) uid := hx
    simp only [updateLocal, if_pos rfl] at hx1
    exact (List.mem_filter.mp hx1).2

/-- C10: when a delete falls back to local storage (either because the
history view is already in fallback mode, or because the remote delete
fails), the per-user local-storage slot is overwritten wholesale with the
displayed in-memory list minus the deleted id; every surviving entry comes
from the displayed list (anything stored but not displayed is dropped), and
a displayed list loaded from the remote store has at most 20 entries. -/
theorem delete_fallback_overwrites (dbOk : Bool) (db : List Recording)
    (localAll : String → List Recording) (displayed : List Recording)
    (uid delId : String) :
    ((deleteRecording true dbOk db localAll displayed uid delId).2.1 uid
        = displayed.filter (fun r => r.id != delId)) ∧
    ((deleteRecording false false db localAll displayed uid delId).2.1 uid
        = displayed.filter (fun r => r.id != delId)) ∧
    (((deleteRecording true dbOk db localAll displayed uid delId).2.1 uid).all
        (fun r => displayed.contains r)) = true ∧
    (dbList db uid).length ≤ 20 := by
  refine ⟨?_, ?_, ?_, ?_⟩
  · show updateLocal localAll uid (displayed.filter (fun r => r.id != delId)) uid = _
    simp [updateLocal]
  · show updateLocal localAll uid (displayed.filter (fun r => r.id != delId)) uid = _
    simp [updateLocal]
  · rw [List.all_eq_true]
    intro x hx
    have hx1 : x ∈ updateLocal localAll uid
        (displayed.filter (fun r => r.id != delId)) uid := hx
    simp only [updateLocal, if_pos rfl] at hx1
    exact List.elem_iff.mpr (List.mem_of_mem_filter hx1)
  · rw [dbList, List.length_take]
    exact Nat.min_le_left _ _
